import Mathlib

/-!
Shallow embedding of the interaction core of `src/main.js` (a WebXR
hand-tracking sandbox): cube spawning, grabbing, two-handed scaling,
connection-mode selection, connection lines, the reset/connect button
actions, and the per-frame `animate` synchronizer.

Modelling conventions, stated once here:

* Machine floats are modelled by `ℚ`.  Three.js `Vector3.distanceTo`
  returns the Euclidean distance, whose value is irrational for general
  inputs; wherever the source stores or divides by a distance *value*
  (the two-handed scaling code), the event carries that scalar `d`
  together with the well-formedness constraint `IsDist d a b`
  (`0 ≤ d ∧ d ^ 2 = distSq a b`), which characterises the Euclidean
  distance exactly without leaving `ℚ`.  Wherever the source only
  *compares* a distance against a nonnegative bound
  (`collideCube`: `distance < radius * scale`), the comparison is
  translated to the exactly equivalent square-free form
  `0 < scale ∧ distSq < radiusSq * scale ^ 2` (both sides of the source
  comparison are squares of nonnegatives once the sign of `scale` is
  split off; `radius > 0` for a box geometry).
* Object references (`THREE.Mesh` objects held in the `cubes` array, in
  `line.userData`, in `connectionSelection`, in `hand2.userData.selected`
  and in `scaling.object`) are modelled as indices into an append-only
  heap `heap : ℕ → Cube`; `nextId` counts allocations.  Dereferencing is
  total, exactly like a JavaScript object reference, and removing an id
  from the `cubes` registry does not invalidate outstanding references —
  matching `resetAction`, which empties the arrays without touching the
  objects themselves.
* Both hands are added to the scene with identity transforms and never
  moved, so a joint's local `position` equals its world position; the
  index-finger-tip poses are the per-event/per-frame inputs.  Rotations
  are not read by any of the cube handlers (only `position`, `scale.x`
  and `setScalar` are), so a transform is modelled by its uniform scale
  and position (`SimT`), acting by `x ↦ scale • x + pos`.
* Rendering, lighting, text and the exit button's timer are out of
  scope; `console.log` calls are effect-free and dropped.
-/

namespace VRSandbox

/-- A 3-component vector with rational coordinates, standing for a
three.js `Vector3`. -/
structure Vec3 where
  x : ℚ
  y : ℚ
  z : ℚ
deriving DecidableEq

/-- Squared Euclidean distance between two points. -/
def distSq (a b : Vec3) : ℚ :=
  (a.x - b.x) ^ 2 + (a.y - b.y) ^ 2 + (a.z - b.z) ^ 2

/-- `d` is the Euclidean distance between `a` and `b`: nonnegative and
squaring to `distSq a b`.  This characterises `Vector3.distanceTo`
exactly while staying inside `ℚ`. -/
def IsDist (d : ℚ) (a b : Vec3) : Prop :=
  0 ≤ d ∧ d ^ 2 = distSq a b

instance (d : ℚ) (a b : Vec3) : Decidable (IsDist d a b) := by
  unfold IsDist; infer_instance

/-- Scalar multiplication of a vector. -/
def smul (s : ℚ) (v : Vec3) : Vec3 :=
  ⟨s * v.x, s * v.y, s * v.z⟩

/-- Vector addition. -/
def vadd (a b : Vec3) : Vec3 :=
  ⟨a.x + b.x, a.y + b.y, a.z + b.z⟩

/-- The similarity part of a three.js transform the cube handlers read
and write: a uniform scale and a position, acting by
`x ↦ scale • x + pos`. -/
structure SimT where
  scale : ℚ
  pos : Vec3
deriving DecidableEq

/-- Composition of transforms: `(t.comp u) x = t (u x)`. -/
def SimT.comp (t u : SimT) : SimT :=
  ⟨t.scale * u.scale, vadd (smul t.scale u.pos) t.pos⟩

/-- Inverse transform (for nonzero scale). -/
def SimT.inv (t : SimT) : SimT :=
  ⟨t.scale⁻¹, smul (-t.scale⁻¹) t.pos⟩

/-- The transform of a hand's index-finger-tip joint at world position
`p`: the joints carry no scale, so this is a pure translation. -/
def tipT (p : Vec3) : SimT :=
  ⟨1, p⟩

/-- Possible parents of a cube mesh in the scene graph: the root scene
(`scene.add` / `scene.attach`) or the right hand's index-finger-tip
joint (`indexTip.attach(cube)` in `onPinchStartRight`). -/
inductive CubeParent where
  | scene
  | rightTip
deriving DecidableEq

/-- A spawned cube mesh: its parent in the scene graph, its local
transform (position and uniform scale, see `SimT`), the squared radius
of its geometry's bounding sphere, and its material's emissive color
(hex).  `BoxGeometry(s, s, s)` has bounding-sphere radius
`(s / 2) * √3`, hence `radiusSq = 3 * (s / 2) ^ 2`. -/
structure Cube where
  parent : CubeParent
  localT : SimT
  radiusSq : ℚ
  emissive : ℕ
deriving DecidableEq

/-- World transform of a cube, given the current world position `rt` of
the right hand's index-finger tip (the only non-root parent a cube can
have). -/
def Cube.worldT (rt : Vec3) (c : Cube) : SimT :=
  match c.parent with
  | CubeParent.scene => c.localT
  | CubeParent.rightTip => (tipT rt).comp c.localT

/-- A connection line (`createConnectionLine`): references to the two
connected cubes (`line.userData.cube1/cube2`) and the two endpoint
positions stored in its geometry's position attribute. -/
structure Connection where
  cube1 : ℕ
  cube2 : ℕ
  endA : Vec3
  endB : Vec3
deriving DecidableEq

/-- The global `scaling` record of `main.js`
(`{ active, initialDistance, object, initialScale }`). -/
structure ScalingState where
  active : Bool
  initialDistance : ℚ
  object : Option ℕ
  initialScale : ℚ
deriving DecidableEq

/-- The mutable globals of `main.js` that the claims are about, plus the
object heap realising JavaScript references. -/
structure MainState where
  heap : ℕ → Cube
  nextId : ℕ
  cubes : List ℕ
  connections : List Connection
  grabbing : Bool
  scaling : ScalingState
  connectionMode : Bool
  connectionSelection : List ℕ
  rightSelected : Option ℕ

/-- `CubeSize` constant of `main.js` (0.05). -/
def CubeSize : ℚ := 1 / 20

/-- Squared bounding-sphere radius of a freshly spawned cube:
`3 * (CubeSize / 2) ^ 2 = 3 / 1600`. -/
def cubeRadiusSq : ℚ := 3 * (CubeSize / 2) ^ 2

/-- Heap cell used for never-allocated ids; zero radius, so it can never
collide even if it were (unreachably) listed in the registry. -/
def defaultCube : Cube :=
  ⟨CubeParent.scene, ⟨1, ⟨0, 0, 0⟩⟩, 0, 0⟩

/-- The initial values of the globals (lines 145-158 of `main.js`). -/
def initState : MainState where
  heap := fun _ => defaultCube
  nextId := 0
  cubes := []
  connections := []
  grabbing := false
  scaling := ⟨false, 0, none, 1⟩
  connectionMode := false
  connectionSelection := []
  rightSelected := none

/-- `collideCube`'s loop over the `cubes` array: return the first cube
whose world-position distance to the finger tip is below
`boundingSphere.radius * cube.scale.x`.  The comparison is the
square-free equivalent of the source's
`distance < radius * scale` (see the header note). -/
def collideAux (heap : ℕ → Cube) (rt tip : Vec3) : List ℕ → Option ℕ
  | [] => none
  | i :: rest =>
    let c := heap i
    if 0 < c.localT.scale ∧
        distSq tip (c.worldT rt).pos < c.radiusSq * c.localT.scale ^ 2 then
      some i
    else
      collideAux heap rt tip rest

/-- `collideCube(indexTip)`: scan the spawned-cube registry for the
first cube colliding with the tip at world position `tip`; `rt` is the
right tip's current world position, needed to place a grabbed cube. -/
def collideCube (s : MainState) (rt tip : Vec3) : Option ℕ :=
  collideAux s.heap rt tip s.cubes

/-- The spawn path of `onPinchStartLeft` (lines 388-402): create a cube
of size `CubeSize` with default black emissive at the left tip's
position, push it onto `cubes`, and `scene.add` it (parent = scene).
The quaternion copy is not modelled (rotations are never read). -/
def spawnCube (s : MainState) (lt : Vec3) : MainState :=
  let c : Cube :=
    { parent := CubeParent.scene
      localT := { scale := 1, pos := lt }
      radiusSq := cubeRadiusSq
      emissive := 0 }
  { s with
    heap := Function.update s.heap s.nextId c
    cubes := s.cubes ++ [s.nextId]
    nextId := s.nextId + 1 }

/-- `onPinchStartLeft` (lines 373-402): if the right hand is grabbing
and the left tip collides with the very cube recorded in
`hand2.userData.selected`, enter scaling, recording the grabbed cube's
current scale and the current inter-tip distance `d`; otherwise spawn a
new cube at the left tip `lt`. -/
def onPinchStartLeft (s : MainState) (lt rt : Vec3) (d : ℚ) : MainState :=
  if s.grabbing then
    match collideCube s rt lt with
    | some k =>
      if s.rightSelected = some k then
        { s with
          scaling :=
            { active := true
              object := some k
              initialScale := (s.heap k).localT.scale
              initialDistance := d } }
      else spawnCube s lt
    | none => spawnCube s lt
  else spawnCube s lt

/-- `onPinchEndLeft` (lines 404-407): only deactivates scaling. -/
def onPinchEndLeft (s : MainState) : MainState :=
  { s with scaling := { s.scaling with active := false } }

/-- Set a cube's material emissive (`cube.material.emissive.setHex`),
leaving parent, transform and radius untouched; `MeshStandardMaterial`
always has an emissive color, so the source's truthiness guard is
always taken. -/
def setEmissive (h : ℕ → Cube) (k : ℕ) (e : ℕ) : ℕ → Cube :=
  Function.update h k (Cube.mk (h k).parent (h k).localT (h k).radiusSq e)

/-- The `forEach` resetting the selected cubes' emissive to `0x000000`
after a connection is made. -/
def resetEmissives (h : ℕ → Cube) : List ℕ → (ℕ → Cube)
  | [] => h
  | k :: rest => resetEmissives (setEmissive h k 0x000000) rest

/-- `createConnectionLine(cube1, cube2)` (lines 463-481): record the two
cube references and the cubes' current world positions as the line's
endpoints, and push the line onto `connections`. -/
def createConnectionLine (s : MainState) (rt : Vec3) (c1 c2 : ℕ) : MainState :=
  let conn : Connection :=
    { cube1 := c1
      cube2 := c2
      endA := ((s.heap c1).worldT rt).pos
      endB := ((s.heap c2).worldT rt).pos }
  { s with connections := s.connections ++ [conn] }

/-- `onPinchStartRight` (lines 409-444).  With a colliding cube: in
connection mode, add it to `connectionSelection` when not already
selected (tinting its emissive green), and when the selection reaches
two cubes create the connection line, reset the emissives, clear the
selection and leave connection mode; outside connection mode, grab the
cube (`indexTip.attach(cube)` preserving its world transform, set
`hand2.userData.selected`, set `grabbing`). -/
def onPinchStartRight (s : MainState) (rt : Vec3) : MainState :=
  match collideCube s rt rt with
  | none => s
  | some k =>
    if s.connectionMode then
      let s1 :=
        if k ∈ s.connectionSelection then s
        else
          { s with
            connectionSelection := s.connectionSelection ++ [k]
            heap := setEmissive s.heap k 0x00ff00 }
      if s1.connectionSelection.length = 2 then
        let a := s1.connectionSelection.getD 0 0
        let b := s1.connectionSelection.getD 1 0
        let s2 := createConnectionLine s1 rt a b
        { s2 with
          heap := resetEmissives s2.heap s1.connectionSelection
          connectionSelection := []
          connectionMode := false }
      else s1
    else
      { s with
        grabbing := true
        heap :=
          Function.update s.heap k
            (Cube.mk CubeParent.rightTip
              ((tipT rt).inv.comp ((s.heap k).worldT rt))
              (s.heap k).radiusSq (s.heap k).emissive)
        rightSelected := some k }

/-- `onPinchEndRight` (lines 447-457): if a cube is recorded in
`hand2.userData.selected`, reattach it to the scene
(`scene.attach(cube)` preserving its world transform), clear the
selection and the `grabbing` flag; in any case deactivate scaling. -/
def onPinchEndRight (s : MainState) (rt : Vec3) : MainState :=
  let s1 :=
    match s.rightSelected with
    | some k =>
      { s with
        heap :=
          Function.update s.heap k
            (Cube.mk CubeParent.scene ((s.heap k).worldT rt)
              (s.heap k).radiusSq (s.heap k).emissive)
        rightSelected := none
        grabbing := false }
    | none => s
  { s1 with scaling := { s1.scaling with active := false } }

/-- The connect button's action (lines 337-341): enable connection mode
and clear the selection. -/
def connectAction (s : MainState) : MainState :=
  { s with connectionMode := true, connectionSelection := [] }

/-- The reset button's action (lines 324-330): `scene.remove` every cube
and line and empty the `cubes` and `connections` arrays.  The heap
objects themselves survive, as do any outstanding references. -/
def resetAction (s : MainState) : MainState :=
  { s with cubes := [], connections := [] }

/-- The per-frame endpoint refresh of one connection line
(lines 496-513): overwrite both stored endpoints with the referenced
cubes' current world positions. -/
def updateConnection (h : ℕ → Cube) (rt : Vec3) (c : Connection) : Connection :=
  Connection.mk c.cube1 c.cube2
    ((h c.cube1).worldT rt).pos ((h c.cube2).worldT rt).pos

/-- The connection-update step of `animate` (lines 495-513): refresh
every connection line's endpoints from the referenced cubes' current
world positions. -/
def animateConnections (s : MainState) (rt : Vec3) : MainState :=
  { s with connections := s.connections.map (updateConnection s.heap rt) }

/-- The scaling step of `animate` (lines 515-528): if scaling is
active, set the scaling object's local scale (`setScalar`) to
`initialScale + currentDistance / initialDistance - 1`, where the
current inter-tip distance is `d`.  Both hands and their tip joints are
tracked (the source's joint-presence guard holds). -/
def animateScaling (s : MainState) (d : ℚ) : MainState :=
  if s.scaling.active then
    let newScale := s.scaling.initialScale + d / s.scaling.initialDistance - 1
    match s.scaling.object with
    | some k =>
      { s with
        heap :=
          Function.update s.heap k
            (Cube.mk (s.heap k).parent
              (SimT.mk newScale (s.heap k).localT.pos)
              (s.heap k).radiusSq (s.heap k).emissive) }
    | none => s
  else s

/-- The cube-related part of `animate` (lines 487-528), in source
order: connection-endpoint refresh, then the scaling update.  The left
tip position `lt` and right tip position `rt` are the frame's joint
poses; `d` is their `distanceTo`. -/
def animate (s : MainState) (lt rt : Vec3) (d : ℚ) : MainState :=
  animateScaling (animateConnections s rt) d

/-- The discrete inputs driving the interaction core: the four pinch
events, the connect/reset button actions (fired by the ECS button
system), and the per-frame tick.  Events carry the current tip world
positions and, where the source reads `distanceTo`, its value `d`. -/
inductive Event where
  | pinchStartLeft (leftTip rightTip : Vec3) (dTips : ℚ)
  | pinchEndLeft
  | pinchStartRight (rightTip : Vec3)
  | pinchEndRight (rightTip : Vec3)
  | connectPressed
  | resetPressed
  | frame (leftTip rightTip : Vec3) (dTips : ℚ)

/-- Dispatch an event to its handler. -/
def step (s : MainState) : Event → MainState
  | Event.pinchStartLeft l r d => onPinchStartLeft s l r d
  | Event.pinchEndLeft => onPinchEndLeft s
  | Event.pinchStartRight r => onPinchStartRight s r
  | Event.pinchEndRight r => onPinchEndRight s r
  | Event.connectPressed => connectAction s
  | Event.resetPressed => resetAction s
  | Event.frame l r d => animate s l r d

/-- An event is well formed when the distance scalar it carries really
is the Euclidean distance between the two tip positions it carries. -/
def WfEvent : Event → Prop
  | Event.pinchStartLeft l r d => IsDist d l r
  | Event.frame l r d => IsDist d l r
  | _ => True

instance (e : Event) : Decidable (WfEvent e) := by
  cases e <;> (unfold WfEvent; infer_instance)

/-- States reachable from the initial globals by well-formed events. -/
inductive Reachable : MainState → Prop where
  | init : Reachable initState
  | step {s : MainState} {e : Event} :
      Reachable s → WfEvent e → Reachable (step s e)

/-!
The ECS button pipeline (`Button` component, `ButtonSystem.execute`,
`HandRaySystem.execute`, lines 17-95).  Each button's state is its own
component, updated independently by the two systems; we model one
button under one hand pointer.  In the source, systems run in
registration order, so within one `world.execute` the `ButtonSystem`
consumes the `currState` written by the previous frame's
`HandRaySystem`, after which `HandRaySystem` recomputes `currState`
from this frame's ray.  Every `currState` value thus flows
ray-write → button-consume; `runFrames` below pairs each write with its
consume, which leaves the fire count over a sample sequence unchanged
and only shifts the frame boundary between the two systems.
-/

/-- The `Button` component states (`'none'`, `'hovered'`, `'pressed'`). -/
inductive BState where
  | none
  | hovered
  | pressed
deriving DecidableEq

/-- The mutable fields of a `Button` component. -/
structure ButtonState where
  currState : BState
  prevState : BState
deriving DecidableEq

/-- A fresh `Button` component (schema defaults: both states `'none'`). -/
def initButton : ButtonState :=
  ⟨BState.none, BState.none⟩

/-- What the hand pointer reports about this button in one frame:
whether this button is the nearest object the pointer's ray intersects,
and whether the pointer is pinched (`hp.isPinched()`). -/
structure PointerSample where
  intersects : Bool
  pinched : Bool
deriving DecidableEq

/-- `HandRaySystem.execute` (lines 64-93), restricted to one button and
one pointer: when the ray hits the button, `currState` becomes
`pressed` if the pointer is pinched, else `hovered` (the source guards
`hovered` behind `currState !== 'pressed'`); with no hit the button is
untouched. -/
def handRay (b : ButtonState) (p : PointerSample) : ButtonState :=
  if p.intersects then
    if p.pinched then { b with currState := BState.pressed }
    else if b.currState ≠ BState.pressed then { b with currState := BState.hovered }
    else b
  else b

/-- `ButtonSystem.execute` (lines 39-56) for one button: the bound
action fires exactly when `currState = pressed ∧ prevState ≠ pressed`;
then `prevState := currState` and `currState := 'none'`.  Returns the
new component state and whether the action fired (the mesh-scale visual
feedback is not modelled). -/
def buttonSystem (b : ButtonState) : ButtonState × Bool :=
  (⟨BState.none, b.currState⟩,
    decide (b.currState = BState.pressed ∧ b.prevState ≠ BState.pressed))

/-- Run the two systems over a sequence of per-frame pointer samples and
count how many times the button's action fired. -/
def runFrames (b : ButtonState) : List PointerSample → ℕ
  | [] => 0
  | p :: rest =>
    let b1 := handRay b p
    let r := buttonSystem b1
    (if r.2 then 1 else 0) + runFrames r.1 rest

/-!  Helper lemmas for the button pipeline.  -/

/-- While the button stays pinched-and-hit, frames after the first fire
nothing: `prevState` is already `pressed`. -/
theorem runFrames_held (n : ℕ) :
    runFrames ⟨BState.none, BState.pressed⟩
      (List.replicate n ⟨true, true⟩) = 0 := by
  induction n with
  | zero => rfl
  | succ m ih =>
    simpa [List.replicate_succ, runFrames, handRay, buttonSystem] using ih

/-- A sequence of frames in which the pointer is never pinched fires
nothing, from any state whose `currState` is the fresh `'none'` that
`ButtonSystem` leaves behind. -/
theorem runFrames_unpinched (b : ButtonState) (hb : b.currState = BState.none)
    (samples : List PointerSample) (h : ∀ p ∈ samples, p.pinched = false) :
    runFrames b samples = 0 := by
  induction samples generalizing b with
  | nil => rfl
  | cons p rest ih =>
    have hp : p.pinched = false := h p (List.mem_cons_self p rest)
    have hrest : ∀ q ∈ rest, q.pinched = false := fun q hq =>
      h q (List.mem_cons_of_mem p hq)
    cases hi : p.intersects <;>
      (simp [runFrames, handRay, buttonSystem, hp, hi, hb];
        exact ih _ rfl hrest)

/-- C5: for every button, the bound action fires exactly once per
transition of the button's state into `pressed`: over a single
uninterrupted press (the pointer hitting and pinching the button) held
across `n ≥ 1` frames it fires exactly once, and over any frame
sequence in which the pointer never pinches — so the button only ever
reaches `hovered` — it fires zero times. -/
theorem button_action_edge_triggered :
    (∀ n : ℕ, 1 ≤ n →
      runFrames initButton (List.replicate n ⟨true, true⟩) = 1) ∧
    ∀ samples : List PointerSample, (∀ p ∈ samples, p.pinched = false) →
      runFrames initButton samples = 0 := by
  constructor
  · intro n hn
    obtain ⟨m, rfl⟩ : ∃ m, n = m + 1 :=
      ⟨n - 1, (Nat.succ_pred_eq_of_pos hn).symm⟩
    simp [List.replicate_succ, runFrames, handRay, buttonSystem, initButton,
      runFrames_held]
  · intro samples h
    exact runFrames_unpinched initButton rfl samples h

/-- Witness for C5 at a three-frame held press and a concrete hover-only
sequence. -/
theorem button_action_edge_triggered_witness :
    runFrames initButton (List.replicate 3 ⟨true, true⟩) = 1 ∧
    runFrames initButton
      [⟨true, false⟩, ⟨false, false⟩, ⟨true, false⟩] = 0 :=
  ⟨button_action_edge_triggered.1 3 (by norm_num),
    button_action_edge_triggered.2 _ (by decide)⟩

/-!  Geometry and transform lemmas.  -/

theorem Vec3.ext_iff {a b : Vec3} : a = b ↔ a.x = b.x ∧ a.y = b.y ∧ a.z = b.z := by
  cases a; cases b; simp

/-- The squared distance vanishes exactly on equal points. -/
theorem distSq_eq_zero_iff (a b : Vec3) : distSq a b = 0 ↔ a = b := by
  obtain ⟨ax, ay, az⟩ := a
  obtain ⟨cx, cy, cz⟩ := b
  unfold distSq
  simp only [Vec3.mk.injEq]
  constructor
  · intro h
    refine ⟨?_, ?_, ?_⟩ <;>
      nlinarith [sq_nonneg (ax - cx), sq_nonneg (ay - cy), sq_nonneg (az - cz)]
  · rintro ⟨rfl, rfl, rfl⟩
    ring

/-- A distance value is zero exactly when the two points coincide. -/
theorem IsDist.eq_zero_iff {d : ℚ} {a b : Vec3} (h : IsDist d a b) :
    d = 0 ↔ a = b := by
  obtain ⟨h0, h2⟩ := h
  constructor
  · intro hd
    subst hd
    rw [← distSq_eq_zero_iff a b, ← h2]
    ring
  · intro hab
    subst hab
    have hsq : d ^ 2 = 0 := by
      rw [h2, distSq]
      ring
    exact sq_eq_zero_iff.mp hsq

/-- Reparenting round trip: re-expressing `u` in `t`'s frame and
composing back with `t` is the identity, for invertible `t` — the
algebra behind three.js `attach` preserving world transforms. -/
theorem SimT.comp_inv_comp (t u : SimT) (h : t.scale ≠ 0) :
    t.comp (t.inv.comp u) = u := by
  obtain ⟨s, ⟨px, py, pz⟩⟩ := t
  obtain ⟨su, ⟨ux, uy, uz⟩⟩ := u
  simp only [SimT.comp, SimT.inv, smul, vadd, SimT.mk.injEq, Vec3.mk.injEq] at *
  refine ⟨?_, ?_, ?_, ?_⟩ <;> field_simp <;> ring

/-- Changing only a cube's emissive leaves its world transform alone. -/
theorem worldT_emissive (rt : Vec3) (c : Cube) (e : ℕ) :
    Cube.worldT rt { c with emissive := e } = Cube.worldT rt c := by
  cases c
  rfl

/-- Changing only a cube's local scale leaves its world position alone
(the tip joint carries no scale, so a parent cannot magnify the
offset). -/
theorem worldT_pos_scale (rt : Vec3) (c : Cube) (ns : ℚ) :
    (Cube.worldT rt
      { c with localT := { c.localT with scale := ns } }).pos =
    (Cube.worldT rt c).pos := by
  obtain ⟨p, l, r, e⟩ := c
  cases p <;> simp [Cube.worldT, SimT.comp, tipT, smul, vadd]

/-!  Characterisations of `onPinchStartRight`'s branches.  -/

/-- No colliding cube: the right pinch is a no-op. -/
theorem onPinchStartRight_none (s : MainState) (rt : Vec3)
    (hc : collideCube s rt rt = none) :
    onPinchStartRight s rt = s := by
  unfold onPinchStartRight
  rw [hc]

/-- Colliding outside connection mode: the cube is grabbed — attached
to the right index tip with its world transform re-expressed in the
tip's frame — and recorded in `hand2.userData.selected`. -/
theorem onPinchStartRight_grab (s : MainState) (rt : Vec3) (k : ℕ)
    (hc : collideCube s rt rt = some k) (hm : s.connectionMode = false) :
    onPinchStartRight s rt =
      { s with
        grabbing := true
        heap :=
          Function.update s.heap k
            { s.heap k with
              parent := CubeParent.rightTip
              localT := (tipT rt).inv.comp ((s.heap k).worldT rt) }
        rightSelected := some k } := by
  unfold onPinchStartRight
  rw [hc]
  simp [hm]

/-- Selecting an already-selected cube with fewer than two pending
selections changes nothing. -/
theorem onPinchStartRight_member (s : MainState) (rt : Vec3) (k : ℕ)
    (hc : collideCube s rt rt = some k) (hm : s.connectionMode = true)
    (hk : k ∈ s.connectionSelection)
    (hl : s.connectionSelection.length ≠ 2) :
    onPinchStartRight s rt = s := by
  unfold onPinchStartRight
  rw [hc]
  simp [hm, hk, hl]

/-- Selecting a second, distinct cube: exactly one connection line
between the two selected cubes is appended, with endpoints at their
current world positions, the selection is emptied and connection mode
is left. -/
theorem onPinchStartRight_second (s : MainState) (rt : Vec3) (a k : ℕ)
    (hc : collideCube s rt rt = some k) (hm : s.connectionMode = true)
    (hsel : s.connectionSelection = [a]) (hk : k ≠ a) :
    (onPinchStartRight s rt).connections =
      s.connections ++
        [{ cube1 := a
           cube2 := k
           endA := ((s.heap a).worldT rt).pos
           endB := ((s.heap k).worldT rt).pos }] ∧
    (onPinchStartRight s rt).connectionSelection = [] ∧
    (onPinchStartRight s rt).connectionMode = false := by
  unfold onPinchStartRight
  rw [hc]
  simp only [hm, if_true, hsel, List.mem_singleton, hk, if_false]
  have hga : ([a] ++ [k]).getD 0 0 = a := rfl
  have hgb : ([a] ++ [k]).getD 1 0 = k := rfl
  norm_num [createConnectionLine, setEmissive, hga, hgb,
    Function.update_same, Function.update_noteq (Ne.symm hk), worldT_emissive]
  rw [hga, hgb]
  constructor
  · rw [Function.update_noteq (Ne.symm hk)]
  · rw [Function.update_same, worldT_emissive]

/-!  Which handlers touch `connectionSelection`.  -/

theorem onPinchStartLeft_sel (s : MainState) (lt rt : Vec3) (d : ℚ) :
    (onPinchStartLeft s lt rt d).connectionSelection = s.connectionSelection := by
  unfold onPinchStartLeft spawnCube
  split
  · split
    · split <;> rfl
    · rfl
  · rfl

theorem onPinchEndRight_sel (s : MainState) (rt : Vec3) :
    (onPinchEndRight s rt).connectionSelection = s.connectionSelection := by
  unfold onPinchEndRight
  cases s.rightSelected <;> rfl

theorem animate_sel (s : MainState) (lt rt : Vec3) (d : ℚ) :
    (animate s lt rt d).connectionSelection = s.connectionSelection := by
  unfold animate animateScaling animateConnections
  split
  · split <;> rfl
  · rfl

/-- A right pinch keeps the pending selection at size at most one: a
second distinct selection is immediately consumed into a connection and
the selection cleared. -/
theorem onPinchStartRight_sel_len (s : MainState) (rt : Vec3)
    (h : s.connectionSelection.length ≤ 1) :
    (onPinchStartRight s rt).connectionSelection.length ≤ 1 := by
  unfold onPinchStartRight createConnectionLine
  cases hc : collideCube s rt rt with
  | none => exact h
  | some k =>
    by_cases hm : s.connectionMode
    · by_cases hkm : k ∈ s.connectionSelection
      · have hl : s.connectionSelection.length ≠ 2 := by omega
        simp only [hm, if_true, hkm, if_pos, hl, if_false]
        exact h
      · simp only [hm, if_true, hkm, if_false, List.length_append,
          List.length_singleton]
        split
        · simp
        · simp only [List.length_append, List.length_singleton]
          omega
    · simp only [hm, if_false]
      exact h

/-- Invariant: in every reachable state, at most one selection is
pending between events. -/
theorem reachable_sel_len (s : MainState) (hs : Reachable s) :
    s.connectionSelection.length ≤ 1 := by
  induction hs with
  | init => simp [initState]
  | @step s e _ _ ih =>
    cases e with
    | pinchStartLeft l r d =>
      rw [step, onPinchStartLeft_sel]
      exact ih
    | pinchEndLeft => exact ih
    | pinchStartRight r => exact onPinchStartRight_sel_len s r ih
    | pinchEndRight r =>
      rw [step, onPinchEndRight_sel]
      exact ih
    | connectPressed => simp [step, connectAction]
    | resetPressed => exact ih
    | frame l r d =>
      rw [step, animate_sel]
      exact ih

/-- C3: over every well-formed event sequence from the initial state,
the pending connection selection (`connectionSelection`) never exceeds
size 2, and a right-pinch select of a cube that is already in the
selection leaves the whole state — in particular the selection —
unchanged.  (A select while two are pending is vacuously a no-op: the
handler consumes the second selection immediately, so no reachable
state holds two pending selections.) -/
theorem selection_bounded_and_idempotent (s : MainState) (hs : Reachable s) :
    s.connectionSelection.length ≤ 2 ∧
    ∀ rt k, s.connectionMode = true → collideCube s rt rt = some k →
      k ∈ s.connectionSelection →
      step s (Event.pinchStartRight rt) = s := by
  have hlen := reachable_sel_len s hs
  refine ⟨by omega, ?_⟩
  intro rt k hm hc hk
  have hne : s.connectionSelection.length ≠ 2 := by omega
  exact onPinchStartRight_member s rt k hc hm hk hne

/-!
Concrete executions used by witnesses and counterexamples.  All tip
positions are chosen with rational inter-tip distances so that the
events are well formed (`IsDist` holds exactly).
-/

/-- The cube spawned by a left pinch at the origin. -/
def cubeO : Cube :=
  ⟨CubeParent.scene, ⟨1, ⟨0, 0, 0⟩⟩, cubeRadiusSq, 0⟩

/-- The origin cube after being grabbed by the right tip at the origin:
reparented to the tip with unchanged local transform. -/
def cubeOGrabbed : Cube :=
  ⟨CubeParent.rightTip, ⟨1, ⟨0, 0, 0⟩⟩, cubeRadiusSq, 0⟩

/-- State after one spawning left pinch at the origin. -/
def sSpawn : MainState :=
  step initState (Event.pinchStartLeft ⟨0, 0, 0⟩ ⟨0, 0, 0⟩ 0)

theorem reach_sSpawn : Reachable sSpawn :=
  Reachable.step Reachable.init ⟨le_refl 0, by norm_num [distSq]⟩

theorem sSpawn_heap0 : sSpawn.heap 0 = cubeO := rfl

/-- The tips at the origin collide with the spawned cube. -/
theorem collide_sSpawn :
    collideCube sSpawn ⟨0, 0, 0⟩ ⟨0, 0, 0⟩ = some 0 := by
  norm_num [collideCube, collideAux, sSpawn, step, onPinchStartLeft, initState,
    spawnCube, Function.update, Cube.worldT, distSq, cubeRadiusSq, CubeSize]

/-- State after the right hand grabs the spawned cube at the origin. -/
def sGrab : MainState :=
  step sSpawn (Event.pinchStartRight ⟨0, 0, 0⟩)

theorem reach_sGrab : Reachable sGrab :=
  Reachable.step reach_sSpawn trivial

theorem sGrab_eq :
    sGrab =
      { sSpawn with
        grabbing := true
        heap :=
          Function.update sSpawn.heap 0
            (Cube.mk CubeParent.rightTip
              ((tipT ⟨0, 0, 0⟩).inv.comp ((sSpawn.heap 0).worldT ⟨0, 0, 0⟩))
              (sSpawn.heap 0).radiusSq (sSpawn.heap 0).emissive)
        rightSelected := some 0 } :=
  onPinchStartRight_grab sSpawn ⟨0, 0, 0⟩ 0 collide_sSpawn rfl

theorem sGrab_heap0 : sGrab.heap 0 = cubeOGrabbed := by
  rw [sGrab_eq]
  show Function.update sSpawn.heap 0 _ 0 = _
  rw [Function.update_same, sSpawn_heap0]
  norm_num [cubeO, cubeOGrabbed, tipT, SimT.inv, SimT.comp, smul, vadd,
    Cube.worldT, Cube.mk.injEq, SimT.mk.injEq, Vec3.mk.injEq]

theorem sGrab_fields :
    sGrab.grabbing = true ∧ sGrab.rightSelected = some 0 ∧
    sGrab.cubes = [0] ∧ sGrab.connectionMode = false := by
  rw [sGrab_eq]
  exact ⟨rfl, rfl, rfl, rfl⟩

/-- With the cube attached to the right tip at `(1/40, 0, 0)`, the left
tip at the origin still collides with it: the tips are `1/40` apart and
`(1/40)^2 < 3/1600`. -/
theorem collide_sGrab :
    collideCube sGrab ⟨1 / 40, 0, 0⟩ ⟨0, 0, 0⟩ = some 0 := by
  have hc : sGrab.cubes = [0] := sGrab_fields.2.2.1
  unfold collideCube
  rw [hc]
  unfold collideAux
  rw [sGrab_heap0]
  norm_num [cubeOGrabbed, Cube.worldT, tipT, SimT.comp, smul, vadd, distSq,
    cubeRadiusSq, CubeSize]

/-- Tips coinciding at the origin also collide with the grabbed cube. -/
theorem collide_sGrab_zero :
    collideCube sGrab ⟨0, 0, 0⟩ ⟨0, 0, 0⟩ = some 0 := by
  have hc : sGrab.cubes = [0] := sGrab_fields.2.2.1
  unfold collideCube
  rw [hc]
  unfold collideAux
  rw [sGrab_heap0]
  norm_num [cubeOGrabbed, Cube.worldT, tipT, SimT.comp, smul, vadd, distSq,
    cubeRadiusSq, CubeSize]

/-- State after entering scaling with the tips `1/40` apart. -/
def sScale : MainState :=
  step sGrab (Event.pinchStartLeft ⟨0, 0, 0⟩ ⟨1 / 40, 0, 0⟩ (1 / 40))

theorem reach_sScale : Reachable sScale :=
  Reachable.step reach_sGrab ⟨by norm_num, by norm_num [distSq]⟩

theorem sScale_eq :
    sScale = { sGrab with scaling := ⟨true, 1 / 40, some 0, 1⟩ } := by
  show onPinchStartLeft sGrab ⟨0, 0, 0⟩ ⟨1 / 40, 0, 0⟩ (1 / 40) = _
  unfold onPinchStartLeft
  rw [if_pos sGrab_fields.1, collide_sGrab]
  dsimp only
  rw [if_pos sGrab_fields.2.1]
  rw [show (sGrab.heap 0).localT.scale = 1 by rw [sGrab_heap0]; rfl]

/-- State after entering scaling with coinciding tips: the recorded
initial inter-tip distance is zero. -/
def sScaleZero : MainState :=
  step sGrab (Event.pinchStartLeft ⟨0, 0, 0⟩ ⟨0, 0, 0⟩ 0)

theorem reach_sScaleZero : Reachable sScaleZero :=
  Reachable.step reach_sGrab ⟨le_refl 0, by norm_num [distSq]⟩

theorem sScaleZero_eq :
    sScaleZero = { sGrab with scaling := ⟨true, 0, some 0, 1⟩ } := by
  show onPinchStartLeft sGrab ⟨0, 0, 0⟩ ⟨0, 0, 0⟩ 0 = _
  unfold onPinchStartLeft
  rw [if_pos sGrab_fields.1, collide_sGrab_zero]
  dsimp only
  rw [if_pos sGrab_fields.2.1]
  rw [show (sGrab.heap 0).localT.scale = 1 by rw [sGrab_heap0]; rfl]

/-- State after one scaling frame with the tips `1/20` apart. -/
def sFrame : MainState :=
  step sScale (Event.frame ⟨0, 0, 0⟩ ⟨1 / 20, 0, 0⟩ (1 / 20))

theorem reach_sFrame : Reachable sFrame :=
  Reachable.step reach_sScale ⟨by norm_num, by norm_num [distSq]⟩

/-- The scaling frame sets the cube's scale to
`1 + (1/20) / (1/40) - 1 = 2`. -/
theorem sFrame_scale : (sFrame.heap 0).localT.scale = 2 := by
  show ((animateScaling (animateConnections sScale ⟨1 / 20, 0, 0⟩)
      (1 / 20)).heap 0).localT.scale = 2
  unfold animateScaling animateConnections
  rw [sScale_eq]
  norm_num [Function.update_same]

/-- State after pressing the connect button in `sSpawn`. -/
def sMode : MainState :=
  step sSpawn Event.connectPressed

theorem reach_sMode : Reachable sMode :=
  Reachable.step reach_sSpawn trivial

theorem collide_sMode :
    collideCube sMode ⟨0, 0, 0⟩ ⟨0, 0, 0⟩ = some 0 :=
  collide_sSpawn

/-- The origin cube highlighted green by a connection-mode selection. -/
def cubeOGreen : Cube :=
  ⟨CubeParent.scene, ⟨1, ⟨0, 0, 0⟩⟩, cubeRadiusSq, 0x00ff00⟩

/-- State after selecting the origin cube in connection mode. -/
def sSel : MainState :=
  step sMode (Event.pinchStartRight ⟨0, 0, 0⟩)

theorem reach_sSel : Reachable sSel :=
  Reachable.step reach_sMode trivial

theorem sSel_eq :
    sSel = { sMode with
      connectionSelection := [0]
      heap := setEmissive sMode.heap 0 0x00ff00 } := by
  show onPinchStartRight sMode ⟨0, 0, 0⟩ = _
  unfold onPinchStartRight
  rw [collide_sMode]
  rfl

theorem sSel_heap0 : sSel.heap 0 = cubeOGreen := by
  rw [sSel_eq]
  show setEmissive sMode.heap 0 0x00ff00 0 = _
  unfold setEmissive
  rw [Function.update_same]
  rfl

theorem collide_sSel :
    collideCube sSel ⟨0, 0, 0⟩ ⟨0, 0, 0⟩ = some 0 := by
  have hc : sSel.cubes = [0] := by rw [sSel_eq]; rfl
  unfold collideCube
  rw [hc]
  norm_num [collideAux, sSel_heap0, cubeOGreen, Cube.worldT, distSq,
    cubeRadiusSq, CubeSize]

/-- A second cube spawned at `(1, 0, 0)`. -/
def cubeI : Cube :=
  ⟨CubeParent.scene, ⟨1, ⟨1, 0, 0⟩⟩, cubeRadiusSq, 0⟩

/-- State after also spawning a second cube at `(1, 0, 0)` while the
origin cube is still pending in the selection. -/
def sSelTwo : MainState :=
  step sSel (Event.pinchStartLeft ⟨1, 0, 0⟩ ⟨1, 0, 0⟩ 0)

theorem reach_sSelTwo : Reachable sSelTwo :=
  Reachable.step reach_sSel ⟨le_refl 0, by norm_num [distSq]⟩

theorem sSelTwo_eq :
    sSelTwo =
      spawnCube
        { sMode with
          connectionSelection := [0]
          heap := setEmissive sMode.heap 0 0x00ff00 } ⟨1, 0, 0⟩ := by
  show onPinchStartLeft sSel ⟨1, 0, 0⟩ ⟨1, 0, 0⟩ 0 = _
  rw [sSel_eq]
  rfl

theorem sSelTwo_fields :
    sSelTwo.connectionMode = true ∧ sSelTwo.connectionSelection = [0] ∧
    sSelTwo.cubes = [0, 1] := by
  rw [sSelTwo_eq]
  exact ⟨rfl, rfl, rfl⟩

theorem sMode_nextId : sMode.nextId = 1 := rfl

theorem sSelTwo_heap0 : sSelTwo.heap 0 = cubeOGreen := by
  rw [sSelTwo_eq]
  unfold spawnCube
  dsimp only
  rw [sMode_nextId, Function.update_noteq (show (0 : ℕ) ≠ 1 by norm_num)]
  show setEmissive sMode.heap 0 0x00ff00 0 = _
  unfold setEmissive
  rw [Function.update_same]
  rfl

theorem sSelTwo_heap1 : sSelTwo.heap 1 = cubeI := by
  rw [sSelTwo_eq]
  unfold spawnCube
  dsimp only
  rw [sMode_nextId, Function.update_same]
  rfl

/-- At the right tip `(1, 0, 0)` the first registry entry (the origin
cube) misses and the second cube is hit. -/
theorem collide_sSelTwo :
    collideCube sSelTwo ⟨1, 0, 0⟩ ⟨1, 0, 0⟩ = some 1 := by
  have hc : sSelTwo.cubes = [0, 1] := sSelTwo_fields.2.2
  unfold collideCube
  rw [hc]
  norm_num [collideAux, sSelTwo_heap0, sSelTwo_heap1, cubeOGreen, cubeI,
    Cube.worldT, distSq, cubeRadiusSq, CubeSize]

/-- A state holding one connection line with stale endpoints, used to
witness the per-frame endpoint refresh. -/
def sConn : MainState :=
  { initState with
    heap := Function.update (Function.update initState.heap 0 cubeO) 1 cubeI
    nextId := 2
    cubes := [0, 1]
    connections := [Connection.mk 0 1 ⟨9, 9, 9⟩ ⟨9, 9, 9⟩] }


/-!
Claim-level theorems.  Each claim of the specification is settled by
exactly one theorem below (with a witness when the theorem carries
hypotheses, and a concrete counterexample where the claim as stated
fails on the code).
-/

/-- C1 (counterexample): the claim "newScale = initialScale +
(currentInterHandDistance - initialInterHandDistance)" is false on the
code.  In the reachable run below, scaling was entered with
initialScale 1 and initialDistance 1/40, the frame's inter-tip distance
is 1/20 (a well-formed distance for the frame's tip positions), and the
frame applies scale 2 — but the claimed difference formula yields
1 + (1/20 - 1/40) = 41/40 ≠ 2. -/
theorem scaling_ratio_counterexample :
    Reachable sFrame ∧
    sScale.scaling.active = true ∧
    sScale.scaling.object = some 0 ∧
    sScale.scaling.initialScale = 1 ∧
    sScale.scaling.initialDistance = 1 / 40 ∧
    IsDist (1 / 20) ⟨0, 0, 0⟩ ⟨1 / 20, 0, 0⟩ ∧
    (sFrame.heap 0).localT.scale = 2 ∧
    sScale.scaling.initialScale + ((1 / 20 : ℚ) - sScale.scaling.initialDistance) ≠
      (sFrame.heap 0).localT.scale := by
  refine ⟨reach_sFrame, ?_, ?_, ?_, ?_,
    ⟨by norm_num, by norm_num [distSq]⟩, sFrame_scale, ?_⟩
  · rw [sScale_eq]
  · rw [sScale_eq]
  · rw [sScale_eq]
  · rw [sScale_eq]
  · rw [sScale_eq, sFrame_scale]
    norm_num

/-- C1 (amended): while scaling is active with target object `k`, the
frame tick applies the uniform scale
`initialScale + currentInterHandDistance / initialInterHandDistance - 1`
(a ratio-based update), where the current inter-hand distance `d` is
the distance between the two index-finger tips. -/
theorem scaling_frame_applies_ratio (s : MainState) (lt rt : Vec3) (d : ℚ)
    (k : ℕ) (ha : s.scaling.active = true) (ho : s.scaling.object = some k)
    (hd : IsDist d lt rt) :
    ((step s (Event.frame lt rt d)).heap k).localT.scale =
      s.scaling.initialScale + d / s.scaling.initialDistance - 1 := by
  show ((animateScaling (animateConnections s rt) d).heap k).localT.scale = _
  unfold animateScaling animateConnections
  dsimp only
  rw [if_pos ha, ho]
  dsimp only
  rw [Function.update_same]

/-- Witness for C1's amended theorem at the concrete scaling run. -/
theorem scaling_frame_applies_ratio_witness :
    ((step sScale (Event.frame ⟨0, 0, 0⟩ ⟨1 / 20, 0, 0⟩ (1 / 20))).heap 0).localT.scale =
      sScale.scaling.initialScale + (1 / 20 : ℚ) / sScale.scaling.initialDistance - 1 :=
  scaling_frame_applies_ratio sScale ⟨0, 0, 0⟩ ⟨1 / 20, 0, 0⟩ (1 / 20) 0
    (by rw [sScale_eq]) (by rw [sScale_eq])
    ⟨by norm_num, by norm_num [distSq]⟩

/-- C2 (counterexample): immediately after the spawning gesture's start
— before any gesture end — the new cube is already a member of the cube
registry and is parented to the scene, not to the spawning hand; there
is no pending preview phase. -/
theorem spawn_registered_at_gesture_start_counterexample :
    Reachable sSpawn ∧ sSpawn.cubes = [0] ∧
    (sSpawn.heap 0).parent = CubeParent.scene ∧ sSpawn.nextId = 1 :=
  ⟨reach_sSpawn, rfl, rfl, rfl⟩

/-- C2 (amended): a spawning left pinch-start (right hand not grabbing)
creates the cube immediately: it is pushed into the registry and added
to the scene at the left tip's position at gesture-start, and the
matching gesture-end changes neither the registry nor any object. -/
theorem spawn_commits_immediately (s : MainState) (lt rt : Vec3) (d : ℚ)
    (hg : s.grabbing = false) :
    (step s (Event.pinchStartLeft lt rt d)).cubes = s.cubes ++ [s.nextId] ∧
    ((step s (Event.pinchStartLeft lt rt d)).heap s.nextId).parent =
      CubeParent.scene ∧
    ((step s (Event.pinchStartLeft lt rt d)).heap s.nextId).localT =
      SimT.mk 1 lt ∧
    (step (step s (Event.pinchStartLeft lt rt d)) Event.pinchEndLeft).cubes =
      (step s (Event.pinchStartLeft lt rt d)).cubes ∧
    (step (step s (Event.pinchStartLeft lt rt d)) Event.pinchEndLeft).heap =
      (step s (Event.pinchStartLeft lt rt d)).heap := by
  have hstep : step s (Event.pinchStartLeft lt rt d) = spawnCube s lt := by
    show onPinchStartLeft s lt rt d = _
    unfold onPinchStartLeft
    rw [hg]
    simp
  rw [hstep]
  refine ⟨rfl, ?_, ?_, rfl, rfl⟩
  · show (Function.update s.heap s.nextId _ s.nextId).parent = _
    rw [Function.update_same]
  · show (Function.update s.heap s.nextId _ s.nextId).localT = _
    rw [Function.update_same]

/-- Witness for C2's amended theorem at the initial state. -/
theorem spawn_commits_immediately_witness :
    (step initState (Event.pinchStartLeft ⟨0, 0, 0⟩ ⟨0, 0, 0⟩ 0)).cubes =
      initState.cubes ++ [initState.nextId] ∧
    ((step initState (Event.pinchStartLeft ⟨0, 0, 0⟩ ⟨0, 0, 0⟩ 0)).heap
      initState.nextId).parent = CubeParent.scene ∧
    ((step initState (Event.pinchStartLeft ⟨0, 0, 0⟩ ⟨0, 0, 0⟩ 0)).heap
      initState.nextId).localT = SimT.mk 1 ⟨0, 0, 0⟩ ∧
    (step (step initState (Event.pinchStartLeft ⟨0, 0, 0⟩ ⟨0, 0, 0⟩ 0))
      Event.pinchEndLeft).cubes =
      (step initState (Event.pinchStartLeft ⟨0, 0, 0⟩ ⟨0, 0, 0⟩ 0)).cubes ∧
    (step (step initState (Event.pinchStartLeft ⟨0, 0, 0⟩ ⟨0, 0, 0⟩ 0))
      Event.pinchEndLeft).heap =
      (step initState (Event.pinchStartLeft ⟨0, 0, 0⟩ ⟨0, 0, 0⟩ 0)).heap :=
  spawn_commits_immediately initState ⟨0, 0, 0⟩ ⟨0, 0, 0⟩ 0 rfl

/-- Witness for C3 at a reachable state with one pending selection:
re-selecting the already-selected cube changes nothing. -/
theorem selection_bounded_and_idempotent_witness :
    sSel.connectionSelection.length ≤ 2 ∧
    step sSel (Event.pinchStartRight ⟨0, 0, 0⟩) = sSel := by
  have h := selection_bounded_and_idempotent sSel reach_sSel
  refine ⟨h.1, h.2 ⟨0, 0, 0⟩ 0 ?_ collide_sSel ?_⟩
  · rw [sSel_eq]
    rfl
  · rw [sSel_eq]
    simp

/-- C4: in connection mode with one cube pending, a right pinch-start
colliding with a second, distinct cube appends exactly one connection
between the two selected cubes (endpoints at their current world
positions), resets the selection to empty, and exits connection mode. -/
theorem second_selection_connects (s : MainState) (rt : Vec3) (a k : ℕ)
    (hm : s.connectionMode = true) (hsel : s.connectionSelection = [a])
    (hc : collideCube s rt rt = some k) (hk : k ≠ a) :
    (step s (Event.pinchStartRight rt)).connections =
      s.connections ++
        [Connection.mk a k ((s.heap a).worldT rt).pos
          ((s.heap k).worldT rt).pos] ∧
    (step s (Event.pinchStartRight rt)).connectionSelection = [] ∧
    (step s (Event.pinchStartRight rt)).connectionMode = false :=
  onPinchStartRight_second s rt a k hc hm hsel hk

/-- Witness for C4 at a reachable state with the origin cube pending
and a second cube at `(1, 0, 0)` being selected. -/
theorem second_selection_connects_witness :
    (step sSelTwo (Event.pinchStartRight ⟨1, 0, 0⟩)).connections =
      sSelTwo.connections ++
        [Connection.mk 0 1 ((sSelTwo.heap 0).worldT ⟨1, 0, 0⟩).pos
          ((sSelTwo.heap 1).worldT ⟨1, 0, 0⟩).pos] ∧
    (step sSelTwo (Event.pinchStartRight ⟨1, 0, 0⟩)).connectionSelection = [] ∧
    (step sSelTwo (Event.pinchStartRight ⟨1, 0, 0⟩)).connectionMode = false :=
  second_selection_connects sSelTwo ⟨1, 0, 0⟩ 0 1 sSelTwo_fields.1
    sSelTwo_fields.2.1 collide_sSelTwo (by norm_num)

/-- C6: grabbing a colliding cube with a right pinch-start and then
releasing it with the matching pinch-end (the hand's tip at the same
pose `rt` at both events) leaves the cube's world transform — uniform
scale and position — unchanged, and afterwards the hand's grab state is
empty: `hand2.userData.selected` is cleared and `grabbing` is false. -/
theorem grab_release_preserves_world_transform (s : MainState) (rt : Vec3)
    (k : ℕ) (hc : collideCube s rt rt = some k)
    (hm : s.connectionMode = false) :
    (((step (step s (Event.pinchStartRight rt)) (Event.pinchEndRight rt)).heap
        k).worldT rt) = ((s.heap k).worldT rt) ∧
    (step (step s (Event.pinchStartRight rt))
      (Event.pinchEndRight rt)).rightSelected = none ∧
    (step (step s (Event.pinchStartRight rt))
      (Event.pinchEndRight rt)).grabbing = false := by
  rw [show step s (Event.pinchStartRight rt) = onPinchStartRight s rt from rfl,
    onPinchStartRight_grab s rt k hc hm]
  simp only [step]
  unfold onPinchEndRight
  dsimp only
  refine ⟨?_, rfl, rfl⟩
  simp only [Function.update_same]
  simp only [Cube.worldT]
  exact SimT.comp_inv_comp _ _ (by norm_num [tipT])

/-- Witness for C6: grab and release the spawned origin cube. -/
theorem grab_release_preserves_world_transform_witness :
    (((step (step sSpawn (Event.pinchStartRight ⟨0, 0, 0⟩))
        (Event.pinchEndRight ⟨0, 0, 0⟩)).heap 0).worldT ⟨0, 0, 0⟩) =
      ((sSpawn.heap 0).worldT ⟨0, 0, 0⟩) ∧
    (step (step sSpawn (Event.pinchStartRight ⟨0, 0, 0⟩))
      (Event.pinchEndRight ⟨0, 0, 0⟩)).rightSelected = none ∧
    (step (step sSpawn (Event.pinchStartRight ⟨0, 0, 0⟩))
      (Event.pinchEndRight ⟨0, 0, 0⟩)).grabbing = false :=
  grab_release_preserves_world_transform sSpawn ⟨0, 0, 0⟩ 0 collide_sSpawn rfl

/-- C7 (counterexample): the reset action empties the cube registry and
the connection list, but it does not clear the pending connection
selection — in the reachable state below the selection still holds the
previously selected cube after reset. -/
theorem reset_keeps_selection_counterexample :
    Reachable sSel ∧ sSel.connectionSelection = [0] ∧
    (step sSel Event.resetPressed).cubes = [] ∧
    (step sSel Event.resetPressed).connections = [] ∧
    (step sSel Event.resetPressed).connectionSelection = [0] ∧
    (step sSel Event.resetPressed).connectionSelection ≠ [] := by
  refine ⟨reach_sSel, ?_, rfl, rfl, ?_, ?_⟩
  · rw [sSel_eq]
  · show sSel.connectionSelection = [0]
    rw [sSel_eq]
  · show sSel.connectionSelection ≠ []
    rw [sSel_eq]
    simp

/-- C7 (amended): the reset action clears the spawned-cube registry and
the connection list, and leaves the pending connection selection
untouched. -/
theorem reset_clears_cubes_and_connections (s : MainState) :
    (step s Event.resetPressed).cubes = [] ∧
    (step s Event.resetPressed).connections = [] ∧
    (step s Event.resetPressed).connectionSelection = s.connectionSelection :=
  ⟨rfl, rfl, rfl⟩

/-- C8: after a frame tick's connection-update step, every connection
line's stored endpoints equal the current world positions of its two
referenced cubes (the later scaling step of the same tick moves no cube
position, so this holds at the end of the whole tick). -/
theorem connection_endpoints_match_world_positions (s : MainState)
    (lt rt : Vec3) (d : ℚ) (conn : Connection)
    (hc : conn ∈ (step s (Event.frame lt rt d)).connections) :
    conn.endA =
      (((step s (Event.frame lt rt d)).heap conn.cube1).worldT rt).pos ∧
    conn.endB =
      (((step s (Event.frame lt rt d)).heap conn.cube2).worldT rt).pos := by
  have hconn : (step s (Event.frame lt rt d)).connections =
      s.connections.map (updateConnection s.heap rt) := by
    show (animateScaling (animateConnections s rt) d).connections = _
    unfold animateScaling animateConnections
    dsimp only
    split
    · split <;> rfl
    · rfl
  have hheap : ∀ j, (((step s (Event.frame lt rt d)).heap j).worldT rt).pos =
      ((s.heap j).worldT rt).pos := by
    intro j
    show (((animateScaling (animateConnections s rt) d).heap j).worldT rt).pos = _
    unfold animateScaling animateConnections
    dsimp only
    split
    · cases ho : s.scaling.object with
      | none => rfl
      | some k =>
        dsimp only
        by_cases hj : j = k
        · subst hj
          rw [Function.update_same]
          exact worldT_pos_scale rt (s.heap j) _
        · rw [Function.update_noteq hj]
    · rfl
  rw [hconn] at hc
  obtain ⟨c0, _, rfl⟩ := List.mem_map.mp hc
  unfold updateConnection
  exact ⟨(hheap c0.cube1).symm, (hheap c0.cube2).symm⟩

/-- Witness for C8: a frame tick rewrites the stale endpoints of the
one stored connection to the two cubes' world positions. -/
theorem connection_endpoints_match_world_positions_witness :
    (Connection.mk 0 1 ⟨0, 0, 0⟩ ⟨1, 0, 0⟩).endA =
      (((step sConn (Event.frame ⟨0, 0, 0⟩ ⟨0, 0, 0⟩ 0)).heap
        (Connection.mk 0 1 (⟨0, 0, 0⟩ : Vec3) ⟨1, 0, 0⟩).cube1).worldT
          ⟨0, 0, 0⟩).pos ∧
    (Connection.mk 0 1 ⟨0, 0, 0⟩ ⟨1, 0, 0⟩).endB =
      (((step sConn (Event.frame ⟨0, 0, 0⟩ ⟨0, 0, 0⟩ 0)).heap
        (Connection.mk 0 1 (⟨0, 0, 0⟩ : Vec3) ⟨1, 0, 0⟩).cube2).worldT
          ⟨0, 0, 0⟩).pos :=
  connection_endpoints_match_world_positions sConn ⟨0, 0, 0⟩ ⟨0, 0, 0⟩ 0
    (Connection.mk 0 1 ⟨0, 0, 0⟩ ⟨1, 0, 0⟩)
    (List.mem_singleton.mpr rfl)

/-- C9 (counterexample): entering Grabbing does not mutate the grabbed
object's emissive.  In the reachable run below the grab succeeded
(`grabbing` set, `hand2.userData.selected` set), yet the cube's
emissive is exactly what it was before the grab — the default black. -/
theorem grab_leaves_emissive_counterexample :
    Reachable sGrab ∧ sGrab.grabbing = true ∧ sGrab.rightSelected = some 0 ∧
    (sGrab.heap 0).emissive = (sSpawn.heap 0).emissive ∧
    (sGrab.heap 0).emissive = 0 := by
  refine ⟨reach_sGrab, sGrab_fields.1, sGrab_fields.2.1, ?_, ?_⟩
  · rw [sGrab_heap0, sSpawn_heap0]
    rfl
  · rw [sGrab_heap0]
    rfl

/-- C9 (amended): outside connection mode, neither the grab
(pinch-start) nor the release (pinch-end) of the right hand changes any
cube's emissive; the emissive highlight is used only by connection-mode
selection. -/
theorem grab_does_not_touch_emissive (s : MainState) (rt : Vec3) (j : ℕ)
    (hm : s.connectionMode = false) :
    ((step s (Event.pinchStartRight rt)).heap j).emissive =
      (s.heap j).emissive ∧
    ((step s (Event.pinchEndRight rt)).heap j).emissive =
      (s.heap j).emissive := by
  constructor
  · show ((onPinchStartRight s rt).heap j).emissive = _
    cases hcol : collideCube s rt rt with
    | none => rw [onPinchStartRight_none s rt hcol]
    | some k =>
      rw [onPinchStartRight_grab s rt k hcol hm]
      by_cases hj : j = k
      · subst hj
        show (Function.update s.heap j _ j).emissive = _
        rw [Function.update_same]
      · show (Function.update s.heap k _ j).emissive = _
        rw [Function.update_noteq hj]
  · show ((onPinchEndRight s rt).heap j).emissive = _
    unfold onPinchEndRight
    cases hr : s.rightSelected with
    | none => rfl
    | some k =>
      dsimp only
      by_cases hj : j = k
      · subst hj
        show (Function.update s.heap j _ j).emissive = _
        rw [Function.update_same]
      · show (Function.update s.heap k _ j).emissive = _
        rw [Function.update_noteq hj]

/-- Witness for C9's amended theorem: grabbing and releasing the
spawned origin cube leaves its emissive untouched. -/
theorem grab_does_not_touch_emissive_witness :
    ((step sSpawn (Event.pinchStartRight ⟨0, 0, 0⟩)).heap 0).emissive =
      (sSpawn.heap 0).emissive ∧
    ((step sSpawn (Event.pinchEndRight ⟨0, 0, 0⟩)).heap 0).emissive =
      (sSpawn.heap 0).emissive :=
  grab_does_not_touch_emissive sSpawn ⟨0, 0, 0⟩ 0 rfl

/-- C10 (counterexample): scaling can be entered with a recorded
initial inter-tip distance of zero — here both index-finger tips
coincide at the origin while the right hand holds the cube there, the
events are well formed, and the reached state has scaling active with
`initialDistance = 0`, so the frame update's division
`currentDistance / initialDistance` is a division by zero. -/
theorem scaling_entry_zero_distance_counterexample :
    Reachable sScaleZero ∧ sScaleZero.scaling.active = true ∧
    sScaleZero.scaling.initialDistance = 0 := by
  refine ⟨reach_sScaleZero, ?_, ?_⟩ <;> rw [sScaleZero_eq]

/-- C10 (amended): entering scaling records exactly the inter-tip
distance supplied by the pose query, and that recorded distance is zero
precisely when the two index-finger tips coincide — the code has no
guard, so the per-frame division is by a nonzero value only in the
non-coinciding case. -/
theorem scaling_entry_records_tip_distance (s : MainState) (lt rt : Vec3)
    (d : ℚ) (k : ℕ) (hg : s.grabbing = true)
    (hc : collideCube s rt lt = some k) (hsel : s.rightSelected = some k)
    (hd : IsDist d lt rt) :
    (step s (Event.pinchStartLeft lt rt d)).scaling.active = true ∧
    (step s (Event.pinchStartLeft lt rt d)).scaling.initialDistance = d ∧
    (d = 0 ↔ lt = rt) := by
  have hstep : (step s (Event.pinchStartLeft lt rt d)).scaling =
      ⟨true, d, some k, (s.heap k).localT.scale⟩ := by
    show (onPinchStartLeft s lt rt d).scaling = _
    unfold onPinchStartLeft
    rw [if_pos hg, hc]
    dsimp only
    rw [if_pos hsel]
  rw [hstep]
  exact ⟨rfl, rfl, hd.eq_zero_iff⟩

/-- Witness for C10's amended theorem at the concrete scaling entry
with tips `1/40` apart. -/
theorem scaling_entry_records_tip_distance_witness :
    (step sGrab
      (Event.pinchStartLeft ⟨0, 0, 0⟩ ⟨1 / 40, 0, 0⟩ (1 / 40))).scaling.active =
      true ∧
    (step sGrab
      (Event.pinchStartLeft ⟨0, 0, 0⟩ ⟨1 / 40, 0, 0⟩
        (1 / 40))).scaling.initialDistance = 1 / 40 ∧
    ((1 / 40 : ℚ) = 0 ↔ (⟨0, 0, 0⟩ : Vec3) = ⟨1 / 40, 0, 0⟩) :=
  scaling_entry_records_tip_distance sGrab ⟨0, 0, 0⟩ ⟨1 / 40, 0, 0⟩ (1 / 40) 0
    sGrab_fields.1 collide_sGrab sGrab_fields.2.1
    ⟨by norm_num, by norm_num [distSq]⟩


end VRSandbox
